import Mathlib

/-!
# Verification of the quotes web application core

Shallow embedding of the request-handling / data-access core of the
quotes application (`app/main.py`, `app/models.py`, `app/deps.py`):
users, quotes and reactions as relational rows, the datastore as lists
of rows in insertion order, and each handler as a pure function from a
datastore state (plus request parameters) to a result and a new state.

Conventions:
* SQL `SELECT ... WHERE p LIMIT 1` (`.filter(...).first()`) is `List.find?`.
* `ORDER BY created_at DESC` is a stable sort (`List.insertionSort`)
  with relation `fun a b => b.created_at ≤ a.created_at`; ties keep the
  table (insertion) order, which is what the engine's scan produces.
* Timestamps are `Nat`; autoincrement primary keys are `Nat` counters.
* Reaction rows are `(user_id, quote_id, reaction_type)` triples: the
  surrogate `id`/`created_at` columns of `user_quote_reactions` are
  never consulted by any handler.
-/

namespace Quotes

/-- A row of the `users` table (`app/models.py`, class `User`). -/
structure UserRow where
  id : Nat
  username : String
  email : String
  password_hash : String
  last_login_at : Option Nat
  is_active : Bool
  deriving DecidableEq, Repr

/-- A row of the `quotes` table (`app/models.py`, class `Quote`). -/
structure QuoteRow where
  id : Nat
  owner_id : Nat
  content : String
  source : Option String
  author : Option String
  explanation : Option String
  created_at : Nat
  deriving DecidableEq, Repr

/-- A row of the `user_quote_reactions` table
(`app/models.py`, class `UserQuoteReaction`), reduced to the
`(user_id, quote_id, reaction_type)` triple that all handlers consult. -/
structure ReactionRow where
  user_id : Nat
  quote_id : Nat
  reaction_type : String
  deriving DecidableEq, Repr

/-- The datastore: the three tables in insertion order plus the
autoincrement counters for the two tables whose primary keys matter. -/
structure DB where
  users : List UserRow
  quotes : List QuoteRow
  reactions : List ReactionRow
  next_user_id : Nat
  next_quote_id : Nat
  deriving DecidableEq, Repr

/-- The empty datastore created by `Base.metadata.create_all`;
SQLite autoincrement keys start at 1. -/
def initDB : DB := ⟨[], [], [], 1, 1⟩

/-- Outcome of a handler: either a success payload or a structured JSON
error `{"error": {"code": ..}}` with an HTTP status (`utils.json_error`). -/
inductive Res (α : Type) where
  | ok (a : α)
  | err (code : String) (status : Nat)
  deriving DecidableEq, Repr

/-- Python `str.strip()` with no arguments: remove leading and trailing
whitespace. (Defined structurally over the character list so that concrete
instances evaluate inside the kernel.) -/
def strip (s : String) : String :=
  ⟨((s.data.dropWhile Char.isWhitespace).reverse.dropWhile
      Char.isWhitespace).reverse⟩

/-- Python `str.lower()`: lowercase every character. -/
def lower (s : String) : String := ⟨s.data.map Char.toLower⟩

/-- Python `x.strip() if x else None` applied to an optional form field:
`None` and the empty string are falsy and store NULL; any other string is
stored trimmed (so a whitespace-only field is stored as `""`, not NULL). -/
def optStrip : Option String → Option String
  | none => none
  | some s => if s = "" then none else some (strip s)

/-- `toggle_reaction` / `api_react_quote` (`app/main.py` lines 380-413 and
543-573): validate the reaction type, look up the quote, then delete the
existing `(user, quote, type)` row (reporting "removed") or insert a fresh
one (reporting "added"). -/
def toggle_reaction (db : DB) (uid qid : Nat) (rtype : String) :
    Res String × DB :=
  if rtype = "like" ∨ rtype = "collect" then
    match db.quotes.find? (fun q => q.id == qid) with
    | none => (.err "not_found" 404, db)
    | some q =>
      match db.reactions.find? (fun r =>
          r.user_id == uid && r.quote_id == q.id && r.reaction_type == rtype) with
      | some existing => (.ok "removed", { db with reactions := db.reactions.erase existing })
      | none =>
          (.ok "added", { db with reactions := db.reactions ++ [⟨uid, q.id, rtype⟩] })
  else
    (.err "invalid_reaction" 400, db)

/-- Modelled from the spec: `app/security.py` (`hash_password`) is imported
by `app/main.py` but is not among the sources; the spec only requires that
registration store a hash of the password. -/
def hash_password (p : String) : String := "pbkdf2$" ++ p

/-- Modelled from the spec: `app/security.py` (`verify_password`) is not
among the sources; the spec requires that verification succeed exactly when
the password matches the stored hash. -/
def verify_password (p h : String) : Bool := hash_password p == h

/-- `register` (`app/main.py` lines 69-89): trim the username, normalize the
email to trimmed lowercase, reject empty required fields, then reject a taken
username, then a taken email, and otherwise insert the new user
(`is_active` defaults to `True` per `app/models.py`). -/
def register (db : DB) (username email password : String) : Res Nat × DB :=
  let username := strip username
  let email := lower (strip email)
  if username = "" ∨ email = "" ∨ password = "" then
    (.err "invalid_input" 400, db)
  else if (db.users.find? (fun u => u.username == username)).isSome then
    (.err "user_exists" 400, db)
  else if (db.users.find? (fun u => u.email == email)).isSome then
    (.err "email_exists" 400, db)
  else
    (.ok db.next_user_id,
      { db with
        users := db.users ++
          [⟨db.next_user_id, username, email, hash_password password, none, true⟩],
        next_user_id := db.next_user_id + 1 })

/-- `login` (`app/main.py` lines 99-117): look up the user by username or
lowercased email, check the password hash, and on success store the session
identity and stamp `last_login_at`. -/
def login (db : DB) (identifier password : String) (now : Nat) : Res Nat × DB :=
  let ident := strip identifier
  match db.users.find? (fun u => u.username == ident || u.email == lower ident) with
  | none => (.err "invalid_credentials" 401, db)
  | some u =>
    if verify_password password u.password_hash then
      (.ok u.id,
        { db with users := db.users.map (fun v =>
            if v.id == u.id then { v with last_login_at := some now } else v) })
    else
      (.err "invalid_credentials" 401, db)

/-- `get_current_user` (`app/deps.py` lines 7-11): a falsy session id (absent
or 0) resolves to no user; otherwise look the id up in `users`. -/
def get_current_user (db : DB) (session_user_id : Option Nat) : Option UserRow :=
  match session_user_id with
  | none => none
  | some uid => if uid = 0 then none else db.users.find? (fun u => u.id == uid)

/-- `require_user` (`app/deps.py` lines 14-17): like `get_current_user` but a
missing user is a 401 error. -/
def require_user (db : DB) (session_user_id : Option Nat) : Res UserRow :=
  match get_current_user db session_user_id with
  | none => .err "unauthorized" 401
  | some u => .ok u

/-- `api_me` (`app/main.py` lines 417-421): the current user's public triple
`(id, username, email)`, or a 401 error. -/
def api_me (db : DB) (session_user_id : Option Nat) : Res (Nat × String × String) :=
  match get_current_user db session_user_id with
  | none => .err "unauthorized" 401
  | some u => .ok (u.id, u.username, u.email)

/-- `create_quote` / `api_create_quote` (`app/main.py` lines 185-206 and
478-499): reject empty-after-trim content, otherwise insert a quote owned by
the caller with trimmed content and `optStrip`-processed optional fields. -/
def create_quote (db : DB) (uid : Nat) (content : String)
    (source author explanation : Option String) (now : Nat) : Res Nat × DB :=
  if strip content = "" then
    (.err "invalid_input" 400, db)
  else
    (.ok db.next_quote_id,
      { db with
        quotes := db.quotes ++
          [⟨db.next_quote_id, uid, strip content,
            optStrip source, optStrip author, optStrip explanation, now⟩],
        next_quote_id := db.next_quote_id + 1 })

/-- `update_quote` / `api_update_quote` (`app/main.py` lines 307-330 and
502-524): existence, then ownership, then content validity, then overwrite
the four content fields of the quote. -/
def update_quote (db : DB) (uid qid : Nat) (content : String)
    (source author explanation : Option String) : Res Unit × DB :=
  match db.quotes.find? (fun q => q.id == qid) with
  | none => (.err "not_found" 404, db)
  | some q =>
    if q.owner_id ≠ uid then (.err "forbidden" 403, db)
    else if strip content = "" then (.err "invalid_input" 400, db)
    else
      (.ok (),
        { db with quotes := db.quotes.map (fun r =>
            if r.id == q.id then
              { r with
                content := strip content
                source := optStrip source
                author := optStrip author
                explanation := optStrip explanation }
            else r) })

/-- `delete_quote` / `api_delete_quote` (`app/main.py` lines 333-347 and
527-540): existence, then ownership, then delete the quote; the
`cascade="all, delete-orphan"` relationship in `app/models.py` deletes the
quote's reaction rows with it. -/
def delete_quote (db : DB) (uid qid : Nat) : Res Unit × DB :=
  match db.quotes.find? (fun q => q.id == qid) with
  | none => (.err "not_found" 404, db)
  | some q =>
    if q.owner_id ≠ uid then (.err "forbidden" 403, db)
    else
      (.ok (),
        { db with
          quotes := db.quotes.filter (fun r => !(r.id == q.id)),
          reactions := db.reactions.filter (fun r => !(r.quote_id == q.id)) })

/-- Whether `needle` occurs as a contiguous run inside `hay` (both as
character lists). -/
def containsChars (needle : List Char) : List Char → Bool
  | [] => needle.isEmpty
  | c :: rest => needle.isPrefixOf (c :: rest) || containsChars needle rest

/-- SQL `column ILIKE '%needle%'`: case-insensitive substring match. -/
def ilikeContains (hay needle : String) : Bool :=
  containsChars (lower needle).data (lower hay).data

/-- The shared filter pipeline of `list_quotes` and `api_list_quotes`
(`app/main.py` lines 138-145 and 433-440): a non-empty trimmed keyword
filters on content OR explanation, and truthy `author` / `source` params add
independent ANDed case-insensitive substring filters (NULL columns never
match). -/
def quote_filters (quotes : List QuoteRow) (q author source : Option String) :
    List QuoteRow :=
  let keyword := strip (q.getD "")
  let afterKeyword :=
    if keyword = "" then quotes
    else quotes.filter (fun qt =>
      ilikeContains qt.content keyword ||
        (match qt.explanation with
          | some e => ilikeContains e keyword
          | none => false))
  let afterAuthor :=
    match author with
    | none => afterKeyword
    | some a =>
      if a = "" then afterKeyword
      else afterKeyword.filter (fun qt =>
        match qt.author with
        | some x => ilikeContains x (strip a)
        | none => false)
  match source with
  | none => afterAuthor
  | some s =>
    if s = "" then afterAuthor
    else afterAuthor.filter (fun qt =>
      match qt.source with
      | some x => ilikeContains x (strip s)
      | none => false)

/-- The relation behind `ORDER BY created_at DESC`. -/
def createdDescRel (a b : QuoteRow) : Prop := b.created_at ≤ a.created_at

instance : DecidableRel createdDescRel := fun a b =>
  Nat.decLe b.created_at a.created_at

/-- `ORDER BY Quote.created_at DESC` as executed by the engine: a stable
sort on `created_at` descending; rows with equal `created_at` keep the
table (insertion) order, as no secondary sort key appears in the query. -/
def orderByCreatedAtDesc (l : List QuoteRow) : List QuoteRow :=
  List.insertionSort createdDescRel l

/-- `api_list_quotes` (`app/main.py` lines 424-459): filter, count the full
filtered set, coerce `page` to at least 1, then order and slice the page
window `[(page-1)*pageSize, page*pageSize)`. Returns `(items, total, page)`. -/
def api_list_quotes (db : DB) (q author source : Option String)
    (page : Int) (pageSize : Nat) : List QuoteRow × Nat × Int :=
  let filtered := quote_filters db.quotes q author source
  let total := filtered.length
  let page1 : Int := max page 1
  (((orderByCreatedAtDesc filtered).drop ((page1 - 1).toNat * pageSize)).take
      pageSize,
    total, page1)

/-- `list_quotes` (`app/main.py` lines 127-176, HTML feed): same query as
`api_list_quotes` except for an inner join with `users` on the owner id
(the `order_by` attached to the builder first is still applied after the
WHERE clause in the executed statement). -/
def list_quotes (db : DB) (q author source : Option String)
    (page : Int) (pageSize : Nat) : List QuoteRow × Nat × Int :=
  let base := db.quotes.filter (fun qt =>
    (db.users.find? (fun u => u.id == qt.owner_id)).isSome)
  let filtered := quote_filters base q author source
  let total := filtered.length
  let page1 : Int := max page 1
  (((orderByCreatedAtDesc filtered).drop ((page1 - 1).toNat * pageSize)).take
      pageSize,
    total, page1)

/-- Outcome of the single outbound chat-completion call, as observed through
the `openai` client's exception surface in `ai_explanation`. -/
inductive CompletionOutcome where
  | success (text : String)
  | authError
  | statusError (code : Nat)
  | otherError
  deriving DecidableEq, Repr

/-- The default Chinese instruction prompt of `ai_explanation`. -/
def defaultPrompt : String := "请为这段语录写一段简洁的解释，并说明其含义和适用场景。"

/-- The user message sent upstream: caller prompt (default when blank),
then the quote content (`app/main.py` lines 218 and 230-233). -/
def aiUserMessage (prompt cleanedContent : String) : String :=
  (if strip prompt = "" then defaultPrompt else strip prompt) ++
    "\n\n语录：" ++ cleanedContent

/-- `ai_explanation` (`app/main.py` lines 209-246): reject blank content,
report a missing API key as the 401 `invalid_api_key` error, call the
service once, and translate `AuthenticationError` and HTTP 401 to the same
401, any other `APIStatusError` to 502, and any other exception to 500; a
successful reply is returned trimmed. -/
def ai_explanation (content prompt : String) (apiKeyConfigured : Bool)
    (service : String → CompletionOutcome) : Res String :=
  let cleaned := strip content
  if cleaned = "" then .err "invalid_input" 400
  else if !apiKeyConfigured then .err "invalid_api_key" 401
  else
    match service (aiUserMessage prompt cleaned) with
    | .success t => .ok (strip t)
    | .authError => .err "invalid_api_key" 401
    | .statusError c =>
        if c = 401 then .err "invalid_api_key" 401 else .err "ai_error" 502
    | .otherError => .err "ai_error" 500

/-- The datastore-mutating operations of the application, used to describe
reachable datastore states. -/
inductive Op where
  | opRegister (username email password : String)
  | opLogin (identifier password : String) (now : Nat)
  | opCreate (uid : Nat) (content : String)
      (source author explanation : Option String) (now : Nat)
  | opUpdate (uid qid : Nat) (content : String)
      (source author explanation : Option String)
  | opDelete (uid qid : Nat)
  | opToggle (uid qid : Nat) (rtype : String)

/-- The state transition of one operation (result discarded). -/
def step (db : DB) : Op → DB
  | .opRegister u e p => (register db u e p).2
  | .opLogin i p n => (login db i p n).2
  | .opCreate uid c s a ex n => (create_quote db uid c s a ex n).2
  | .opUpdate uid qid c s a ex => (update_quote db uid qid c s a ex).2
  | .opDelete uid qid => (delete_quote db uid qid).2
  | .opToggle uid qid t => (toggle_reaction db uid qid t).2

/-- Run a sequence of operations from the freshly created datastore. -/
def run (ops : List Op) : DB := ops.foldl step initDB

/-- A datastore state the application can actually be in. -/
def Reachable (db : DB) : Prop := ∃ ops : List Op, run ops = db

/-- Flip one stored user's `is_active` flag, leaving everything else alone. -/
def set_active (db : DB) (uid : Nat) (b : Bool) : DB :=
  { db with users := db.users.map (fun u =>
      if u.id == uid then { u with is_active := b } else u) }

/-- Every column of a user row except the `is_active` flag. -/
def userPublic (u : UserRow) : Nat × String × String × String × Option Nat :=
  (u.id, u.username, u.email, u.password_hash, u.last_login_at)

/-- The feed ordering the specification claims: `created_at` descending
with ties broken by `id` descending. -/
def claimedFeedRel (a b : QuoteRow) : Prop :=
  b.created_at < a.created_at ∨ (a.created_at = b.created_at ∧ b.id < a.id)

instance : DecidableRel claimedFeedRel := fun a b =>
  inferInstanceAs (Decidable
    (b.created_at < a.created_at ∨ (a.created_at = b.created_at ∧ b.id < a.id)))

instance : IsTotal QuoteRow createdDescRel :=
  ⟨fun a b => Nat.le_total b.created_at a.created_at⟩

instance : IsTrans QuoteRow createdDescRel :=
  ⟨fun _ _ _ hab hbc => le_trans hbc hab⟩

/-- A small reachable datastore shared by the concrete witnesses below:
one registered user (id 1) and two quotes (ids 1, 2) created at the same
instant, the second with a whitespace-only `source` field. -/
def sampleDB : DB := run
  [.opRegister "alice" "A@x.com" "pw",
   .opCreate 1 "Carpe diem" none none none 5,
   .opCreate 1 "beta" (some " ") none none 5]

/-! ## Helper lemmas -/

/-- The reaction lookup predicate of `toggle_reaction` holds exactly of the
`(uid, qid, rtype)` row. -/
theorem reaction_pred_iff (uid qid : Nat) (rtype : String) (r : ReactionRow) :
    (r.user_id == uid && r.quote_id == qid && r.reaction_type == rtype) = true ↔
      r = ⟨uid, qid, rtype⟩ := by
  cases r
  simp [ReactionRow.mk.injEq, and_assoc]

/-- If some quote with the requested id is stored, the quote lookup finds a
quote with that id. -/
theorem find_quote_of_exists (db : DB) (qid : Nat)
    (hq : ∃ q ∈ db.quotes, q.id = qid) :
    ∃ q', db.quotes.find? (fun q => q.id == qid) = some q' ∧ q'.id = qid := by
  obtain ⟨q, hmem, hid⟩ := hq
  have hs : (db.quotes.find? (fun q => q.id == qid)).isSome := by
    rw [List.find?_isSome]
    exact ⟨q, hmem, by simp [hid]⟩
  obtain ⟨q', hq'⟩ := Option.isSome_iff_exists.mp hs
  exact ⟨q', hq', by simpa using List.find?_some hq'⟩

/-- When the `(uid, qid, rtype)` row is absent, the reaction lookup of
`toggle_reaction` finds nothing. -/
theorem find_reaction_of_not_mem {l : List ReactionRow} {uid qid : Nat}
    {rtype : String} (h : (⟨uid, qid, rtype⟩ : ReactionRow) ∉ l) :
    l.find? (fun r =>
      r.user_id == uid && r.quote_id == qid && r.reaction_type == rtype) = none := by
  rw [List.find?_eq_none]
  intro x hx hpx
  exact h ((reaction_pred_iff uid qid rtype x).mp hpx ▸ hx)

/-- When the `(uid, qid, rtype)` row is present, the reaction lookup of
`toggle_reaction` finds exactly that row. -/
theorem find_reaction_of_mem {l : List ReactionRow} {uid qid : Nat}
    {rtype : String} (h : (⟨uid, qid, rtype⟩ : ReactionRow) ∈ l) :
    l.find? (fun r =>
      r.user_id == uid && r.quote_id == qid && r.reaction_type == rtype) =
      some ⟨uid, qid, rtype⟩ := by
  have hs : (l.find? (fun r =>
      r.user_id == uid && r.quote_id == qid && r.reaction_type == rtype)).isSome := by
    rw [List.find?_isSome]
    exact ⟨⟨uid, qid, rtype⟩, h, by simp⟩
  obtain ⟨r, hr⟩ := Option.isSome_iff_exists.mp hs
  have hp := List.find?_some
    (p := fun r : ReactionRow =>
      r.user_id == uid && r.quote_id == qid && r.reaction_type == rtype) hr
  rw [hr, (reaction_pred_iff uid qid rtype r).mp hp]

/-- Branch equation: toggling an absent reaction appends exactly the
`(uid, qid, rtype)` row and reports "added". -/
theorem toggle_reaction_eq_added (db : DB) (uid qid : Nat) (rtype : String)
    (hty : rtype = "like" ∨ rtype = "collect")
    (hq : ∃ q ∈ db.quotes, q.id = qid)
    (habs : (⟨uid, qid, rtype⟩ : ReactionRow) ∉ db.reactions) :
    toggle_reaction db uid qid rtype =
      (.ok "added",
        { db with reactions := db.reactions ++ [⟨uid, qid, rtype⟩] }) := by
  obtain ⟨q', hfind, hqid⟩ := find_quote_of_exists db qid hq
  unfold toggle_reaction
  rw [if_pos hty, hfind]
  dsimp only
  rw [hqid, find_reaction_of_not_mem habs]

/-- Branch equation: toggling a present reaction erases exactly the
`(uid, qid, rtype)` row and reports "removed". -/
theorem toggle_reaction_eq_removed (db : DB) (uid qid : Nat) (rtype : String)
    (hty : rtype = "like" ∨ rtype = "collect")
    (hq : ∃ q ∈ db.quotes, q.id = qid)
    (hmem : (⟨uid, qid, rtype⟩ : ReactionRow) ∈ db.reactions) :
    toggle_reaction db uid qid rtype =
      (.ok "removed",
        { db with reactions := db.reactions.erase ⟨uid, qid, rtype⟩ }) := by
  obtain ⟨q', hfind, hqid⟩ := find_quote_of_exists db qid hq
  unfold toggle_reaction
  rw [if_pos hty, hfind]
  dsimp only
  rw [hqid, find_reaction_of_mem hmem]

/-! ## C1: the reaction toggle is an involution -/

/-- C1: for every user, stored quote and reaction type in like/collect
(over a duplicate-free reaction table, the invariant of C2), calling
`toggle_reaction` twice with identical arguments leaves the set of reaction
rows equal to the set before the first call; the first call reports "added"
when the row is absent (or "removed" when present) and the second call
performs and reports the inverse. -/
theorem toggle_reaction_involution (db : DB) (uid qid : Nat) (rtype : String)
    (hnd : db.reactions.Nodup)
    (hty : rtype = "like" ∨ rtype = "collect")
    (hq : ∃ q ∈ db.quotes, q.id = qid) :
    ((⟨uid, qid, rtype⟩ : ReactionRow) ∉ db.reactions →
      (toggle_reaction db uid qid rtype).1 = .ok "added" ∧
      (toggle_reaction (toggle_reaction db uid qid rtype).2 uid qid rtype).1 =
        .ok "removed") ∧
    ((⟨uid, qid, rtype⟩ : ReactionRow) ∈ db.reactions →
      (toggle_reaction db uid qid rtype).1 = .ok "removed" ∧
      (toggle_reaction (toggle_reaction db uid qid rtype).2 uid qid rtype).1 =
        .ok "added") ∧
    ∀ x : ReactionRow,
      (x ∈ (toggle_reaction (toggle_reaction db uid qid rtype).2 uid qid
        rtype).2.reactions ↔ x ∈ db.reactions) := by
  by_cases hmem : (⟨uid, qid, rtype⟩ : ReactionRow) ∈ db.reactions
  · have h1 := toggle_reaction_eq_removed db uid qid rtype hty hq hmem
    rw [h1]
    have habs1 : (⟨uid, qid, rtype⟩ : ReactionRow) ∉
        db.reactions.erase ⟨uid, qid, rtype⟩ := hnd.not_mem_erase
    have h2 := toggle_reaction_eq_added
      { db with reactions := db.reactions.erase ⟨uid, qid, rtype⟩ }
      uid qid rtype hty hq habs1
    refine ⟨fun h => absurd hmem h, fun _ => ⟨rfl, by rw [h2]⟩, fun x => ?_⟩
    rw [h2]
    dsimp only
    by_cases hx : x = (⟨uid, qid, rtype⟩ : ReactionRow)
    · subst hx
      simp [hmem]
    · rw [List.mem_append]
      simp only [List.mem_singleton, hx, or_false]
      exact List.mem_erase_of_ne hx
  · have h1 := toggle_reaction_eq_added db uid qid rtype hty hq hmem
    rw [h1]
    have hmem1 : (⟨uid, qid, rtype⟩ : ReactionRow) ∈
        db.reactions ++ [⟨uid, qid, rtype⟩] := by simp
    have h2 := toggle_reaction_eq_removed
      { db with reactions := db.reactions ++ [⟨uid, qid, rtype⟩] }
      uid qid rtype hty hq hmem1
    refine ⟨fun _ => ⟨rfl, by rw [h2]⟩, fun h => absurd h hmem, fun x => ?_⟩
    rw [h2]
    dsimp only
    rw [List.erase_append_right _ hmem, List.erase_cons_head]
    simp

/-- Witness for C1: concrete double toggle of a "like" on quote 1 of
`sampleDB`. -/
theorem toggle_reaction_involution_witness :
    ((⟨1, 1, "like"⟩ : ReactionRow) ∉ sampleDB.reactions →
      (toggle_reaction sampleDB 1 1 "like").1 = .ok "added" ∧
      (toggle_reaction (toggle_reaction sampleDB 1 1 "like").2 1 1 "like").1 =
        .ok "removed") ∧
    ((⟨1, 1, "like"⟩ : ReactionRow) ∈ sampleDB.reactions →
      (toggle_reaction sampleDB 1 1 "like").1 = .ok "removed" ∧
      (toggle_reaction (toggle_reaction sampleDB 1 1 "like").2 1 1 "like").1 =
        .ok "added") ∧
    ∀ x : ReactionRow,
      (x ∈ (toggle_reaction (toggle_reaction sampleDB 1 1 "like").2 1 1
        "like").2.reactions ↔ x ∈ sampleDB.reactions) :=
  toggle_reaction_involution sampleDB 1 1 "like" (by decide) (Or.inl rfl)
    (by decide)

/-! ## C9: the reaction toggle touches exactly one row -/

/-- C9: a successful `toggle_reaction` call changes the multiplicity of the
`(user, quote, type)` row by exactly one (up when absent, down when present)
and leaves the multiplicity of every other reaction row — other types for
the same user and quote, and all rows of other users — unchanged. -/
theorem toggle_reaction_frame (db : DB) (uid qid : Nat) (rtype : String)
    (hty : rtype = "like" ∨ rtype = "collect")
    (hq : ∃ q ∈ db.quotes, q.id = qid) :
    ((⟨uid, qid, rtype⟩ : ReactionRow) ∉ db.reactions →
      (toggle_reaction db uid qid rtype).2.reactions.count ⟨uid, qid, rtype⟩ =
        db.reactions.count ⟨uid, qid, rtype⟩ + 1) ∧
    ((⟨uid, qid, rtype⟩ : ReactionRow) ∈ db.reactions →
      (toggle_reaction db uid qid rtype).2.reactions.count ⟨uid, qid, rtype⟩ + 1 =
        db.reactions.count ⟨uid, qid, rtype⟩) ∧
    ∀ x : ReactionRow, x ≠ (⟨uid, qid, rtype⟩ : ReactionRow) →
      (toggle_reaction db uid qid rtype).2.reactions.count x =
        db.reactions.count x := by
  by_cases hmem : (⟨uid, qid, rtype⟩ : ReactionRow) ∈ db.reactions
  · rw [toggle_reaction_eq_removed db uid qid rtype hty hq hmem]
    refine ⟨fun h => absurd hmem h, fun _ => ?_, fun x hx => ?_⟩
    · dsimp only
      rw [List.count_erase_self]
      have hpos : 0 < db.reactions.count ⟨uid, qid, rtype⟩ :=
        List.count_pos_iff.mpr hmem
      omega
    · dsimp only
      exact List.count_erase_of_ne hx db.reactions
  · rw [toggle_reaction_eq_added db uid qid rtype hty hq hmem]
    refine ⟨fun _ => ?_, fun h => absurd h hmem, fun x hx => ?_⟩
    · dsimp only
      rw [List.count_append]
      simp
    · dsimp only
      rw [List.count_append]
      simp [hx]

/-- Witness for C9: concrete toggle of a "collect" on quote 2 of
`sampleDB`. -/
theorem toggle_reaction_frame_witness :
    ((⟨1, 2, "collect"⟩ : ReactionRow) ∉ sampleDB.reactions →
      (toggle_reaction sampleDB 1 2 "collect").2.reactions.count
          ⟨1, 2, "collect"⟩ =
        sampleDB.reactions.count ⟨1, 2, "collect"⟩ + 1) ∧
    ((⟨1, 2, "collect"⟩ : ReactionRow) ∈ sampleDB.reactions →
      (toggle_reaction sampleDB 1 2 "collect").2.reactions.count
          ⟨1, 2, "collect"⟩ + 1 =
        sampleDB.reactions.count ⟨1, 2, "collect"⟩) ∧
    ∀ x : ReactionRow, x ≠ (⟨1, 2, "collect"⟩ : ReactionRow) →
      (toggle_reaction sampleDB 1 2 "collect").2.reactions.count x =
        sampleDB.reactions.count x :=
  toggle_reaction_frame sampleDB 1 2 "collect" (Or.inr rfl) (by decide)

/-! ## C2: the reaction-uniqueness invariant -/

theorem register_reactions (db : DB) (u e p : String) :
    (register db u e p).2.reactions = db.reactions := by
  unfold register
  dsimp only
  repeat' (first | rfl | split)

theorem login_reactions (db : DB) (i p : String) (n : Nat) :
    (login db i p n).2.reactions = db.reactions := by
  unfold login
  dsimp only
  repeat' (first | rfl | split)

theorem create_quote_reactions (db : DB) (uid : Nat) (c : String)
    (s a e : Option String) (n : Nat) :
    (create_quote db uid c s a e n).2.reactions = db.reactions := by
  unfold create_quote
  repeat' (first | rfl | split)

theorem update_quote_reactions (db : DB) (uid qid : Nat) (c : String)
    (s a e : Option String) :
    (update_quote db uid qid c s a e).2.reactions = db.reactions := by
  unfold update_quote
  repeat' (first | rfl | split)

/-- Every operation preserves duplicate-freedom of the reaction table:
only `toggle_reaction` inserts rows, and it checks for existence first. -/
theorem step_preserves_reaction_nodup (db : DB) (op : Op)
    (h : db.reactions.Nodup) : (step db op).reactions.Nodup := by
  cases op with
  | opRegister u e p => rw [step, register_reactions]; exact h
  | opLogin i p n => rw [step, login_reactions]; exact h
  | opCreate uid c s a e n => rw [step, create_quote_reactions]; exact h
  | opUpdate uid qid c s a e => rw [step, update_quote_reactions]; exact h
  | opDelete uid qid =>
      rw [step]
      unfold delete_quote
      repeat' split
      · exact h
      · exact h
      · exact h.filter _
  | opToggle uid qid t =>
      rw [step]
      unfold toggle_reaction
      split
      · split
        · exact h
        · split
          · exact h.erase _
          · rename_i hnone
            rw [List.nodup_append]
            refine ⟨h, List.nodup_singleton _, ?_⟩
            intro x hx hmemx
            rw [List.mem_singleton] at hmemx
            subst hmemx
            have := List.find?_eq_none.mp hnone _ hx
            simp at this
      · exact h

/-- C2: in every reachable datastore state each (user, quote, reaction_type)
triple occurs in at most one reaction row; every operation preserves this
(toggle checks existence before inserting); and a state where one user holds
both a like and a collect row on the same quote is reachable. -/
theorem reaction_uniqueness_invariant :
    (∀ (db : DB) (op : Op), db.reactions.Nodup → (step db op).reactions.Nodup) ∧
    (∀ db : DB, Reachable db → ∀ r : ReactionRow, db.reactions.count r ≤ 1) ∧
    (∃ db : DB, Reachable db ∧ ∃ uid qid : Nat,
      (⟨uid, qid, "like"⟩ : ReactionRow) ∈ db.reactions ∧
      (⟨uid, qid, "collect"⟩ : ReactionRow) ∈ db.reactions) := by
  have hrun : ∀ (ops : List Op) (d : DB), d.reactions.Nodup →
      (ops.foldl step d).reactions.Nodup := by
    intro ops
    induction ops with
    | nil => intro d h; exact h
    | cons o os ih =>
        intro d h
        exact ih _ (step_preserves_reaction_nodup d o h)
  refine ⟨step_preserves_reaction_nodup, fun db hr r => ?_, ?_⟩
  · obtain ⟨ops, rfl⟩ := hr
    exact List.nodup_iff_count_le_one.mp
      (hrun ops initDB (List.nodup_nil)) r
  · refine ⟨run [.opRegister "alice" "A@x.com" "pw",
      .opCreate 1 "Carpe diem" none none none 5,
      .opToggle 1 1 "like", .opToggle 1 1 "collect"],
      ⟨_, rfl⟩, 1, 1, by decide, by decide⟩

/-- Witness for C2: the invariant is decided on the concrete `sampleDB`
(which is reachable by construction) and preserved across a concrete
toggle. -/
theorem reaction_uniqueness_invariant_witness :
    (step sampleDB (.opToggle 1 1 "like")).reactions.Nodup ∧
    ∀ r : ReactionRow, sampleDB.reactions.count r ≤ 1 :=
  ⟨reaction_uniqueness_invariant.1 sampleDB (.opToggle 1 1 "like") (by decide),
   reaction_uniqueness_invariant.2.1 sampleDB
     ⟨[.opRegister "alice" "A@x.com" "pw",
       .opCreate 1 "Carpe diem" none none none 5,
       .opCreate 1 "beta" (some " ") none none 5], rfl⟩⟩

/-! ## C3: error precedence of update and delete -/

/-- With duplicate-free quote ids, the quote lookup returns exactly the
stored quote bearing the requested id. -/
theorem find_quote_eq_of_nodup {l : List QuoteRow} {qid : Nat} {q : QuoteRow}
    (hnd : (l.map QuoteRow.id).Nodup) (hmem : q ∈ l) (hid : q.id = qid) :
    l.find? (fun r => r.id == qid) = some q := by
  induction l with
  | nil => cases hmem
  | cons h t ih =>
    rw [List.map_cons, List.nodup_cons] at hnd
    rcases List.mem_cons.mp hmem with rfl | hmt
    · exact List.find?_cons_of_pos (p := fun r => r.id == qid) t
        (show (q.id == qid) = true by simp [hid])
    · have hne : ¬(h.id == qid) = true := by
        simp only [beq_iff_eq]
        intro hh
        apply hnd.1
        rw [hh, ← hid]
        exact List.mem_map_of_mem QuoteRow.id hmt
      rw [List.find?_cons_of_neg (p := fun r => r.id == qid) t hne]
      exact ih hnd.2 hmt

/-- C3: `update_quote` and `delete_quote` evaluate existence, then
ownership, then (for update) input validity, in that fixed order: a missing
quote is NotFound whatever the content and actor; an existing quote of
another owner is Forbidden whatever the content; an existing owned quote
with blank content is InvalidInput; and InvalidInput arises only in that
last situation. -/
theorem update_delete_check_order (db : DB) (uid qid : Nat) (content : String)
    (source author explanation : Option String)
    (hnd : (db.quotes.map QuoteRow.id).Nodup) :
    ((∀ q ∈ db.quotes, q.id ≠ qid) →
      (update_quote db uid qid content source author explanation).1 =
        .err "not_found" 404 ∧
      (delete_quote db uid qid).1 = .err "not_found" 404) ∧
    (∀ q ∈ db.quotes, q.id = qid → q.owner_id ≠ uid →
      (update_quote db uid qid content source author explanation).1 =
        .err "forbidden" 403 ∧
      (delete_quote db uid qid).1 = .err "forbidden" 403) ∧
    (∀ q ∈ db.quotes, q.id = qid → q.owner_id = uid → strip content = "" →
      (update_quote db uid qid content source author explanation).1 =
        .err "invalid_input" 400) ∧
    ((update_quote db uid qid content source author explanation).1 =
        .err "invalid_input" 400 →
      (∃ q ∈ db.quotes, q.id = qid ∧ q.owner_id = uid) ∧ strip content = "") := by
  refine ⟨fun habs => ?_, fun q hmem hid hown => ?_, fun q hmem hid hown hc => ?_,
    fun hinv => ?_⟩
  · have hf : db.quotes.find? (fun r => r.id == qid) = none := by
      rw [List.find?_eq_none]
      intro x hx
      simpa using habs x hx
    constructor
    · unfold update_quote
      rw [hf]
    · unfold delete_quote
      rw [hf]
  · have hf := find_quote_eq_of_nodup hnd hmem hid
    constructor
    · unfold update_quote
      rw [hf]
      dsimp only
      rw [if_pos hown]
    · unfold delete_quote
      rw [hf]
      dsimp only
      rw [if_pos hown]
  · have hf := find_quote_eq_of_nodup hnd hmem hid
    unfold update_quote
    rw [hf]
    dsimp only
    rw [if_neg (fun h => h hown), if_pos hc]
  · unfold update_quote at hinv
    rcases hfq : db.quotes.find? (fun r => r.id == qid) with _ | q
    · rw [hfq] at hinv
      simp at hinv
    · rw [hfq] at hinv
      dsimp only at hinv
      by_cases hown : q.owner_id ≠ uid
      · rw [if_pos hown] at hinv
        simp at hinv
      · rw [if_neg hown] at hinv
        by_cases hc : strip content = ""
        · exact ⟨⟨q, List.mem_of_find?_eq_some hfq,
            by simpa using List.find?_some hfq, not_not.mp hown⟩, hc⟩
        · rw [if_neg hc] at hinv
          simp at hinv

/-- Witness for C3: on `sampleDB`, a missing quote id reports NotFound, a
foreign owner reports Forbidden, and blank content on an owned quote reports
InvalidInput. -/
theorem update_delete_check_order_witness :
    ((update_quote sampleDB 2 99 " " none none none).1 = .err "not_found" 404 ∧
      (delete_quote sampleDB 2 99).1 = .err "not_found" 404) ∧
    ((update_quote sampleDB 2 1 " " none none none).1 = .err "forbidden" 403 ∧
      (delete_quote sampleDB 2 1).1 = .err "forbidden" 403) ∧
    (update_quote sampleDB 1 1 " " none none none).1 = .err "invalid_input" 400 :=
  ⟨(update_delete_check_order sampleDB 2 99 " " none none none (by decide)).1
      (by decide),
   (update_delete_check_order sampleDB 2 1 " " none none none (by decide)).2.1
      ⟨1, 1, "Carpe diem", none, none, none, 5⟩ (by decide) rfl (by decide),
   (update_delete_check_order sampleDB 1 1 " " none none none
      (by decide)).2.2.1
      ⟨1, 1, "Carpe diem", none, none, none, 5⟩ (by decide) rfl rfl (by decide)⟩

/-! ## C4: feed ordering -/

/-- C4 (amended): the page returned by either listing handler is ordered by
`created_at` descending; the query carries no secondary sort key, so nothing
orders ties by id. -/
theorem list_quotes_sorted (db : DB) (q author source : Option String)
    (page : Int) (pageSize : Nat) :
    List.Sorted createdDescRel (api_list_quotes db q author source page pageSize).1 ∧
    List.Sorted createdDescRel (list_quotes db q author source page pageSize).1 := by
  constructor <;>
    exact List.Pairwise.sublist
      ((List.take_sublist _ _).trans (List.drop_sublist _ _))
      (List.sorted_insertionSort createdDescRel _)

/-- Counterexample to C4 as stated: in `sampleDB` quotes 1 and 2 share
`created_at = 5`, and the feed returns them in ascending id order (the table
order), not descending id order as the claimed tie-break requires. -/
theorem list_quotes_no_id_tiebreak :
    (api_list_quotes sampleDB none none none 1 10).1 =
      [⟨1, 1, "Carpe diem", none, none, none, 5⟩,
       ⟨2, 1, "beta", some "", none, none, 5⟩] ∧
    (list_quotes sampleDB none none none 1 10).1 =
      [⟨1, 1, "Carpe diem", none, none, none, 5⟩,
       ⟨2, 1, "beta", some "", none, none, 5⟩] ∧
    ¬ List.Pairwise claimedFeedRel (api_list_quotes sampleDB none none none 1 10).1 ∧
    ¬ List.Pairwise claimedFeedRel (list_quotes sampleDB none none none 1 10).1 := by
  refine ⟨by decide, by decide, by decide, by decide⟩

/-! ## C5: pagination -/

/-- C5: for every filter combination and integer `page`, both listing
handlers coerce `page` to a minimum of 1 (so 0 and negative pages behave
exactly like page 1), return at most `pageSize` rows — the window at offset
`(page-1)*pageSize` of the ordered filtered set — and return `total` equal
to the length of the whole filtered set, an expression independent of `page`
and `pageSize`. -/
theorem list_quotes_pagination (db : DB) (q author source : Option String)
    (page : Int) (pageSize : Nat) :
    (page ≤ 1 →
      api_list_quotes db q author source page pageSize =
        api_list_quotes db q author source 1 pageSize ∧
      list_quotes db q author source page pageSize =
        list_quotes db q author source 1 pageSize) ∧
    (api_list_quotes db q author source page pageSize).1.length ≤ pageSize ∧
    (list_quotes db q author source page pageSize).1.length ≤ pageSize ∧
    (api_list_quotes db q author source page pageSize).2.1 =
      (quote_filters db.quotes q author source).length ∧
    (list_quotes db q author source page pageSize).2.1 =
      (quote_filters
        (db.quotes.filter (fun qt =>
          (db.users.find? (fun u => u.id == qt.owner_id)).isSome))
        q author source).length ∧
    (api_list_quotes db q author source page pageSize).1 =
      ((orderByCreatedAtDesc (quote_filters db.quotes q author source)).drop
        ((max page 1 - 1).toNat * pageSize)).take pageSize := by
  refine ⟨fun hp => ?_, List.length_take_le _ _, List.length_take_le _ _,
    rfl, rfl, rfl⟩
  have hmax : max page 1 = (1 : Int) := max_eq_right hp
  constructor
  · unfold api_list_quotes
    rw [hmax, max_self]
  · unfold list_quotes
    rw [hmax, max_self]

/-- Witness for C5: page 0 of `sampleDB` behaves exactly like page 1, with
the page-independence hypothesis discharged at `page = 0`. -/
theorem list_quotes_pagination_witness :
    (api_list_quotes sampleDB none none none 0 10 =
        api_list_quotes sampleDB none none none 1 10 ∧
      list_quotes sampleDB none none none 0 10 =
        list_quotes sampleDB none none none 1 10) ∧
    (api_list_quotes sampleDB none none none 0 10).1.length ≤ 10 ∧
    (list_quotes sampleDB none none none 0 10).1.length ≤ 10 ∧
    (api_list_quotes sampleDB none none none 0 10).2.1 =
      (quote_filters sampleDB.quotes none none none).length ∧
    (list_quotes sampleDB none none none 0 10).2.1 =
      (quote_filters
        (sampleDB.quotes.filter (fun qt =>
          (sampleDB.users.find? (fun u => u.id == qt.owner_id)).isSome))
        none none none).length ∧
    (api_list_quotes sampleDB none none none 0 10).1 =
      ((orderByCreatedAtDesc (quote_filters sampleDB.quotes none none none)).drop
        ((max (0 : Int) 1 - 1).toNat * 10)).take 10 :=
  ⟨(list_quotes_pagination sampleDB none none none 0 10).1 (by decide),
   (list_quotes_pagination sampleDB none none none 0 10).2⟩

/-! ## C6: quote creation -/

/-- C6 (amended): `create_quote` fails with InvalidInput exactly when the
trimmed content is empty (leaving the datastore unchanged); otherwise it
appends a quote owned by the creator whose optional fields go through
`optStrip`: an absent field or the empty string is stored as NULL, while any
other value — including a whitespace-only string — is stored trimmed (so a
whitespace-only field is stored as `""`, not NULL). -/
theorem create_quote_spec (db : DB) (uid : Nat) (content : String)
    (source author explanation : Option String) (now : Nat) :
    ((create_quote db uid content source author explanation now).1 =
        .err "invalid_input" 400 ↔ strip content = "") ∧
    (strip content = "" →
      (create_quote db uid content source author explanation now).2 = db) ∧
    (strip content ≠ "" →
      (create_quote db uid content source author explanation now).2.quotes =
        db.quotes ++ [⟨db.next_quote_id, uid, strip content, optStrip source,
          optStrip author, optStrip explanation, now⟩] ∧
      (create_quote db uid content source author explanation now).1 =
        .ok db.next_quote_id) ∧
    (∀ s : Option String, optStrip s = none ↔ s = none ∨ s = some "") ∧
    (∀ t : String, t ≠ "" → optStrip (some t) = some (strip t)) := by
  have hopt : ∀ s : Option String, optStrip s = none ↔ s = none ∨ s = some "" := by
    intro s
    cases s with
    | none => simp [optStrip]
    | some t =>
      by_cases ht : t = ""
      · subst ht
        simp [optStrip]
      · simp [optStrip, ht]
  by_cases hc : strip content = ""
  · refine ⟨⟨fun _ => hc, fun _ => ?_⟩, fun _ => ?_, fun h => absurd hc h,
      hopt, fun t ht => by simp [optStrip, ht]⟩ <;>
    · unfold create_quote
      rw [if_pos hc]
  · refine ⟨⟨fun h => ?_, fun h => absurd h hc⟩, fun h => absurd h hc,
      fun _ => ?_, hopt, fun t ht => by simp [optStrip, ht]⟩
    · unfold create_quote at h
      rw [if_neg hc] at h
      simp at h
    · unfold create_quote
      rw [if_neg hc]
      exact ⟨rfl, rfl⟩

/-- Counterexample to C6 as stated: a whitespace-only `source` is empty
after trimming yet is stored as the empty string, not as NULL. -/
theorem create_quote_whitespace_source_not_null :
    strip " " = "" ∧
    (create_quote sampleDB 1 "hello" (some " ") none none 7).2.quotes =
      sampleDB.quotes ++ [⟨3, 1, "hello", some "", none, none, 7⟩] ∧
    (some "" : Option String) ≠ none := by
  refine ⟨by decide, by decide, by decide⟩

/-- Witness for C6: a successful creation with a trimmed source and an
empty-string author, and a rejected whitespace-only content. -/
theorem create_quote_spec_witness :
    ((create_quote sampleDB 1 "hi" (some " x ") (some "") none 7).1 =
        .ok 3 ∧
      (create_quote sampleDB 1 "hi" (some " x ") (some "") none 7).2.quotes =
        sampleDB.quotes ++ [⟨3, 1, "hi", some "x", none, none, 7⟩]) ∧
    (create_quote sampleDB 1 "  " none none none 7).2 = sampleDB :=
  ⟨by
    have h := (create_quote_spec sampleDB 1 "hi" (some " x ") (some "") none
      7).2.2.1 (by decide)
    exact ⟨h.2, h.1⟩,
   (create_quote_spec sampleDB 1 "  " none none none 7).2.1 (by decide)⟩

/-! ## C7: registration uniqueness errors -/

/-- C7 (amended): provided the trimmed username, the normalized email and
the password are all non-empty (empty required fields are rejected first
with InvalidInput), a registration whose trimmed username is already taken
fails with UserExists regardless of the email, and one whose normalized
email matches a stored (lowercase-normalized) email case-insensitively,
while the username is fresh, fails with EmailExists. -/
theorem register_uniqueness (db : DB) (username email password : String)
    (hu : strip username ≠ "") (he : lower (strip email) ≠ "")
    (hp : password ≠ "") :
    ((∃ u ∈ db.users, u.username = strip username) →
      (register db username email password).1 = .err "user_exists" 400) ∧
    ((∀ u ∈ db.users, u.username ≠ strip username) →
      (∀ u ∈ db.users, lower u.email = u.email) →
      (∃ u ∈ db.users, lower u.email = lower (strip email)) →
      (register db username email password).1 = .err "email_exists" 400) := by
  constructor
  · rintro ⟨u, hmem, huser⟩
    have hsome : (db.users.find? (fun v => v.username == strip username)).isSome = true := by
      rw [List.find?_isSome]
      exact ⟨u, hmem, by simp [huser]⟩
    unfold register
    dsimp only
    rw [if_neg (by simp [hu, he, hp]), if_pos hsome]
  · rintro hfresh hlow ⟨u, hmem, hemail⟩
    have hnone : (db.users.find? (fun v => v.username == strip username)).isSome = false := by
      rw [Bool.eq_false_iff, ne_eq, List.find?_isSome]
      rintro ⟨v, hv, hveq⟩
      exact hfresh v hv (by simpa using hveq)
    have hsome : (db.users.find? (fun v => v.email == lower (strip email))).isSome = true := by
      rw [List.find?_isSome]
      refine ⟨u, hmem, ?_⟩
      have : u.email = lower (strip email) := by rw [← hlow u hmem, hemail]
      simp [this]
    unfold register
    dsimp only
    rw [if_neg (by simp [hu, he, hp]), if_neg (by simp [hnone]), if_pos hsome]

/-- Counterexample to C7 as stated: a request reusing the taken username
"alice" but carrying an empty password fails with InvalidInput, not
UserExists — required-field validation precedes the uniqueness checks. -/
theorem register_empty_password_counterexample :
    (∃ u ∈ sampleDB.users, u.username = strip "alice") ∧
    (register sampleDB "alice" "fresh@new.com" "").1 =
      .err "invalid_input" 400 ∧
    (register sampleDB "alice" "fresh@new.com" "").1 ≠
      .err "user_exists" 400 := by
  refine ⟨by decide, by decide, by decide⟩

/-- Witness for C7: a taken username with a novel email reports UserExists;
a fresh username with the stored email in different case reports
EmailExists. -/
theorem register_uniqueness_witness :
    (register sampleDB " alice " "fresh@new.com" "pw").1 =
      .err "user_exists" 400 ∧
    (register sampleDB "bob" " A@X.COM " "pw").1 = .err "email_exists" 400 :=
  ⟨(register_uniqueness sampleDB " alice " "fresh@new.com" "pw" (by decide)
      (by decide) (by decide)).1 (by decide),
   (register_uniqueness sampleDB "bob" " A@X.COM " "pw" (by decide)
      (by decide) (by decide)).2 (by decide) (by decide) (by decide)⟩

/-! ## C8: AI-explanation error translation -/

/-- C8: `ai_explanation` rejects blank content with InvalidInput (400),
reports a missing API key, an upstream authentication failure or an
upstream HTTP 401 as the 401 `invalid_api_key` error, maps any other
service-level (`APIStatusError`) failure to 502 and any other unexpected
failure to 500, and returns the trimmed explanation on success. -/
theorem ai_explanation_errors (content prompt : String) (key : Bool)
    (service : String → CompletionOutcome) :
    (strip content = "" →
      ai_explanation content prompt key service = .err "invalid_input" 400) ∧
    (strip content ≠ "" → key = false →
      ai_explanation content prompt key service = .err "invalid_api_key" 401) ∧
    (strip content ≠ "" → key = true →
      (service (aiUserMessage prompt (strip content)) = .authError →
        ai_explanation content prompt key service = .err "invalid_api_key" 401) ∧
      (service (aiUserMessage prompt (strip content)) = .statusError 401 →
        ai_explanation content prompt key service = .err "invalid_api_key" 401) ∧
      (∀ c : Nat, c ≠ 401 →
        service (aiUserMessage prompt (strip content)) = .statusError c →
        ai_explanation content prompt key service = .err "ai_error" 502) ∧
      (service (aiUserMessage prompt (strip content)) = .otherError →
        ai_explanation content prompt key service = .err "ai_error" 500) ∧
      (∀ t : String, service (aiUserMessage prompt (strip content)) = .success t →
        ai_explanation content prompt key service = .ok (strip t))) := by
  refine ⟨fun hc => ?_, fun hc hk => ?_, fun hc hk => ?_⟩
  · unfold ai_explanation
    dsimp only
    rw [if_pos hc]
  · subst hk
    unfold ai_explanation
    dsimp only
    rw [if_neg hc]
    rfl
  · subst hk
    refine ⟨fun hsvc => ?_, fun hsvc => ?_, fun c hne hsvc => ?_,
      fun hsvc => ?_, fun t hsvc => ?_⟩ <;>
    · unfold ai_explanation
      dsimp only
      rw [if_neg hc, hsvc]
      first
      | rfl
      | (dsimp only; rw [if_neg hne]; rfl)

/-- Witness for C8: each error-translation branch evaluated on concrete
inputs. -/
theorem ai_explanation_errors_witness :
    ai_explanation " " "" true (fun _ => .otherError) =
      .err "invalid_input" 400 ∧
    ai_explanation "q" "" false (fun _ => .otherError) =
      .err "invalid_api_key" 401 ∧
    ai_explanation "q" "" true (fun _ => .authError) =
      .err "invalid_api_key" 401 ∧
    ai_explanation "q" "" true (fun _ => .statusError 401) =
      .err "invalid_api_key" 401 ∧
    ai_explanation "q" "" true (fun _ => .statusError 500) =
      .err "ai_error" 502 ∧
    ai_explanation "q" "" true (fun _ => .otherError) = .err "ai_error" 500 ∧
    ai_explanation "q" "" true (fun _ => .success " ok ") = .ok "ok" :=
  ⟨(ai_explanation_errors " " "" true (fun _ => .otherError)).1 (by decide),
   (ai_explanation_errors "q" "" false (fun _ => .otherError)).2.1
     (by decide) rfl,
   ((ai_explanation_errors "q" "" true (fun _ => .authError)).2.2
     (by decide) rfl).1 rfl,
   ((ai_explanation_errors "q" "" true (fun _ => .statusError 401)).2.2
     (by decide) rfl).2.1 rfl,
   ((ai_explanation_errors "q" "" true (fun _ => .statusError 500)).2.2
     (by decide) rfl).2.2.1 500 (by decide) rfl,
   ((ai_explanation_errors "q" "" true (fun _ => .otherError)).2.2
     (by decide) rfl).2.2.2.1 rfl,
   ((ai_explanation_errors "q" "" true (fun _ => .success " ok ")).2.2
     (by decide) rfl).2.2.2.2 " ok " rfl⟩

/-! ## C10: the is_active flag is never consulted -/

/-- Lookups whose predicate ignores `is_active` see through the
`set_active` user map. -/
theorem find?_set_active (l : List UserRow) (uid : Nat) (b : Bool)
    (p : UserRow → Bool)
    (hp : ∀ u : UserRow, p { u with is_active := b } = p u) :
    (l.map (fun u => if u.id == uid then { u with is_active := b } else u)).find? p =
      (l.find? p).map
        (fun u => if u.id == uid then { u with is_active := b } else u) := by
  rw [List.find?_map]
  have hpf : p ∘ (fun u : UserRow =>
      if u.id == uid then { u with is_active := b } else u) = p := by
    funext u
    by_cases h : (u.id == uid) = true <;> simp [Function.comp, h, hp u]
  rw [hpf]

/-- Session resolution on a state with one user's `is_active` flipped
returns the same user, up to the flipped flag. -/
theorem get_current_user_set_active (db : DB) (uid : Nat) (b : Bool)
    (s : Option Nat) :
    get_current_user (set_active db uid b) s =
      (get_current_user db s).map
        (fun u => if u.id == uid then { u with is_active := b } else u) := by
  cases s with
  | none => rfl
  | some v =>
    unfold get_current_user set_active
    dsimp only
    by_cases hv : v = 0
    · simp [hv]
    · rw [if_neg hv, if_neg hv, find?_set_active]
      intro u
      rfl

/-- C10: no operation consults `User.is_active`. Flipping one stored user's
flag leaves the outcome of authentication, session resolution (up to the
flag itself), the current-user endpoint, and every quote and reaction
operation unchanged; states that differ only in the flag keep differing
only in the flag after any of these operations. -/
theorem is_active_not_consulted (db : DB) (uid : Nat) (b : Bool) :
    (∀ i p n, (login (set_active db uid b) i p n).1 = (login db i p n).1 ∧
      (login (set_active db uid b) i p n).2 =
        set_active (login db i p n).2 uid b) ∧
    (∀ s, (get_current_user (set_active db uid b) s).map userPublic =
      (get_current_user db s).map userPublic) ∧
    (∀ s, api_me (set_active db uid b) s = api_me db s) ∧
    (∀ s, (require_user (set_active db uid b) s = .err "unauthorized" 401 ↔
      require_user db s = .err "unauthorized" 401)) ∧
    (∀ uid' c src a e n, create_quote (set_active db uid b) uid' c src a e n =
      ((create_quote db uid' c src a e n).1,
        set_active (create_quote db uid' c src a e n).2 uid b)) ∧
    (∀ uid' qid c src a e,
      update_quote (set_active db uid b) uid' qid c src a e =
      ((update_quote db uid' qid c src a e).1,
        set_active (update_quote db uid' qid c src a e).2 uid b)) ∧
    (∀ uid' qid, delete_quote (set_active db uid b) uid' qid =
      ((delete_quote db uid' qid).1,
        set_active (delete_quote db uid' qid).2 uid b)) ∧
    (∀ uid' qid t, toggle_reaction (set_active db uid b) uid' qid t =
      ((toggle_reaction db uid' qid t).1,
        set_active (toggle_reaction db uid' qid t).2 uid b)) ∧
    (∀ q a src page sz, api_list_quotes (set_active db uid b) q a src page sz =
      api_list_quotes db q a src page sz) ∧
    (∀ q a src page sz, list_quotes (set_active db uid b) q a src page sz =
      list_quotes db q a src page sz) := by
  refine ⟨fun i p n => ?_, fun s => ?_, fun s => ?_, fun s => ?_,
    fun uid' c src a e n => ?_, fun uid' qid c src a e => ?_,
    fun uid' qid => ?_, fun uid' qid t => ?_, fun q a src page sz => rfl,
    fun q a src page sz => ?_⟩
  · unfold login
    dsimp only [set_active]
    rw [find?_set_active db.users uid b
      (fun u => u.username == strip i || u.email == lower (strip i))
      (fun u => rfl)]
    cases hf : db.users.find?
        (fun u => u.username == strip i || u.email == lower (strip i)) with
    | none => exact ⟨rfl, rfl⟩
    | some u =>
      dsimp only [Option.map]
      have hph : (if (u.id == uid) = true then { u with is_active := b }
          else u).password_hash = u.password_hash := by
        by_cases h : (u.id == uid) = true <;> simp [h]
      have hid : (if (u.id == uid) = true then { u with is_active := b }
          else u).id = u.id := by
        by_cases h : (u.id == uid) = true <;> simp [h]
      rw [hph, hid]
      by_cases hv : verify_password p u.password_hash = true
      · rw [if_pos hv, if_pos hv]
        refine ⟨rfl, ?_⟩
        dsimp only [set_active]
        congr 1
        rw [List.map_map, List.map_map]
        congr 1
        funext v
        by_cases h1 : (v.id == uid) = true <;>
          by_cases h2 : (v.id == u.id) = true <;>
          simp [Function.comp, h1, h2]
      · rw [if_neg hv, if_neg hv]
        exact ⟨rfl, rfl⟩
  · rw [get_current_user_set_active]
    cases hg : get_current_user db s with
    | none => rfl
    | some u =>
      dsimp only [Option.map]
      by_cases h : (u.id == uid) = true <;> simp [userPublic, h]
  · unfold api_me
    rw [get_current_user_set_active]
    cases hg : get_current_user db s with
    | none => rfl
    | some u =>
      dsimp only [Option.map]
      by_cases h : (u.id == uid) = true <;> simp [h]
  · unfold require_user
    rw [get_current_user_set_active]
    cases hg : get_current_user db s with
    | none => rfl
    | some u =>
      dsimp only [Option.map]
      constructor <;> intro h <;> simp at h
  · unfold create_quote
    repeat' (first | rfl | split)
  · unfold update_quote
    dsimp only [set_active]
    repeat' (first | rfl | split)
  · unfold delete_quote
    dsimp only [set_active]
    repeat' (first | rfl | split)
  · unfold toggle_reaction
    dsimp only [set_active]
    repeat' (first | rfl | split)
  · unfold list_quotes
    dsimp only [set_active]
    have hbase : db.quotes.filter (fun qt =>
        ((db.users.map (fun u =>
          if u.id == uid then { u with is_active := b } else u)).find?
            (fun u => u.id == qt.owner_id)).isSome) =
      db.quotes.filter (fun qt =>
        (db.users.find? (fun u => u.id == qt.owner_id)).isSome) := by
      apply List.filter_congr
      intro qt _
      rw [find?_set_active db.users uid b (fun u => u.id == qt.owner_id)
        (fun u => rfl)]
      cases db.users.find? (fun u => u.id == qt.owner_id) <;> rfl
    rw [hbase]

end Quotes
